import Mathlib

/-!
Verification of the SQL formatter front-end (src/sqlformatter.py).

The bespoke logic of the repository is embedded here over `List Char`:

* `dtbAux` / `dash_to_block` — the regex substitution
  `re.sub(r"--[^\n]*", lambda m: "/* " + m.group(0)[2:].strip() + " */", sql)`
  of the Comment Normalizer (source lines 79-86).
* `sbcAux` — the block-comment substitution
  `re.sub(r"/\*.*?\*/", " ", sql, flags=re.S)` (source lines 95 and 137).
* `splitNLAux` / `dropDashLines` — the line filter
  `"\n".join([ln for ln in sql.splitlines() if not ln.strip().startswith("--")])`
  (source lines 96 and 138), splitting at `\n`, `\r` and `\r\n` like
  `str.splitlines()` and rejoining with `\n` (the further terminators
  `str.splitlines()` recognises lie outside the character scope declared
  below).
* `collapseWs` — the best-effort minifier `" ".join(sql.split())` (line 103).
* `format_with_sqlglot`, `format_with_sqlparse`, `runFormat` — the backend
  selection and error-handling control flow (lines 88-160), with the two
  external formatting libraries abstracted as records of fallible functions
  and Python exceptions abstracted as numeric tokens (`PyExn`).

Whitespace is modelled as `Char.isWhitespace` (space, tab, CR, LF), the
characters relevant to the SQL inputs the program handles.
-/

/-- Python `str.strip()`: drop leading and trailing whitespace. -/
def pyStrip (l : List Char) : List Char :=
  ((l.dropWhile Char.isWhitespace).reverse.dropWhile Char.isWhitespace).reverse

/-- The replacement text `"/* " + body.strip() + " */"` produced for one
matched `--` comment span by the Comment Normalizer. -/
def mkBlock (body : List Char) : List Char :=
  '/' :: '*' :: ' ' :: (pyStrip body ++ ' ' :: '*' :: '/' :: [])

/-- Scanner for `re.sub(r"--[^\n]*", ...)` (source line 86).  In mode `none`
it copies characters until it sees the first `--`; it then switches to mode
`some acc`, accumulating the comment span (everything up to the next newline
or the end of input, reversed in `acc`), and emits `mkBlock` of the span. -/
def dtbAux : List Char → Option (List Char) → List Char
  | [], none => []
  | [], some acc => mkBlock acc.reverse
  | c :: rest, some acc =>
    if c = '\n' then mkBlock acc.reverse ++ '\n' :: dtbAux rest none
    else dtbAux rest (some (c :: acc))
  | '-' :: '-' :: rest2, none => dtbAux rest2 (some [])
  | c :: rest, none => c :: dtbAux rest none

/-- `dash_to_block` from source lines 79-86. -/
def dash_to_block (s : String) : String :=
  String.mk (dtbAux s.data none)

/-- Whether the list contains the two-character sequence `--`. -/
def hasDashDash : List Char → Bool
  | [] => false
  | c :: rest =>
    match rest with
    | [] => false
    | c2 :: _ => (c == '-' && c2 == '-') || hasDashDash rest

/-- Index of the first occurrence of `--`, if any. -/
def findDashDash : List Char → Option Nat
  | [] => none
  | c :: rest =>
    match rest with
    | [] => none
    | c2 :: _ =>
      if c = '-' ∧ c2 = '-' then some 0
      else (findDashDash rest).map (fun i => i + 1)

/-- Per-line transform stated by the specification of the Comment Normalizer:
the span from the (first) double-hyphen marker up to the end of the line is
replaced by `/* ` ++ the span's text after the two hyphens, whitespace
trimmed, ++ ` */`, and the text before the marker is left unchanged. -/
def specLineRewrite (l : List Char) : List Char :=
  match findDashDash l with
  | none => l
  | some i =>
    l.take i ++ ('/' :: '*' :: ' ' :: []) ++ pyStrip (l.drop (i + 2))
      ++ (' ' :: '*' :: '/' :: [])

/-- Python `"\n".join`. -/
def joinNL : List (List Char) → List Char
  | [] => []
  | [l] => l
  | l :: ls => l ++ '\n' :: joinNL ls

/-- Helper for `pySplitlines`: splits at each line terminator — a `\r\n`
pair counts as one terminator, otherwise a bare `\n` or a bare `\r` —
accumulating the current line reversed in `acc`; a trailing empty segment
after a final terminator is not produced, matching Python
`str.splitlines()`.  (Python also splits at `\v`, `\f` and some Unicode
terminators, which lie outside this embedding's declared character scope of
space, tab, CR and LF.) -/
def splitNLAux : List Char → List Char → List (List Char)
  | [], acc =>
    match acc with
    | [] => []
    | _ => [acc.reverse]
  | '\r' :: '\n' :: rest, acc => acc.reverse :: splitNLAux rest []
  | c :: rest, acc =>
    if c = '\n' ∨ c = '\r' then acc.reverse :: splitNLAux rest []
    else splitNLAux rest (c :: acc)

/-- Python `str.splitlines()` restricted to the `\n`, `\r` and `\r\n`
terminators. -/
def pySplitlines (l : List Char) : List (List Char) :=
  splitNLAux l []

/-- The line terminators of `str.splitlines()` within the declared character
scope: `\n`, `\r`, and the two-character `\r\n`. -/
inductive LineTerm where
  | lf : LineTerm
  | cr : LineTerm
  | crlf : LineTerm
deriving DecidableEq

/-- The characters of a line terminator. -/
def termChars : LineTerm → List Char
  | LineTerm.lf => ['\n']
  | LineTerm.cr => ['\r']
  | LineTerm.crlf => ['\r', '\n']

/-- Assembles a text from terminator-delimited lines followed by a final
unterminated segment; every string decomposes this way. -/
def assembleLines : List (List Char × LineTerm) → List Char → List Char
  | [], last => last
  | (l, t) :: ps, last => l ++ termChars t ++ assembleLines ps last

/-- Well-formedness of such a decomposition: a bare `\r` terminator must
not be followed by text starting with `\n`, since `str.splitlines()` would
read that pair as one `\r\n` terminator. -/
def noCRThenLF : List (List Char × LineTerm) → List Char → Bool
  | [], _ => true
  | (_, t) :: ps, last =>
    (if t = LineTerm.cr then !((assembleLines ps last).head? == some '\n') else true)
      && noCRThenLF ps last

/-- Whether the list starts with the two characters `--`. -/
def startsDD : List Char → Bool
  | c :: c2 :: _ => c == '-' && c2 == '-'
  | _ => false

/-- Whether the list contains the two-character sequence `*/`. -/
def hasStarSlash : List Char → Bool
  | [] => false
  | c :: rest =>
    match rest with
    | [] => false
    | c2 :: _ => (c == '*' && c2 == '/') || hasStarSlash rest

/-- Whether the list contains the two-character sequence `/*`. -/
def hasSlashStar : List Char → Bool
  | [] => false
  | c :: rest =>
    match rest with
    | [] => false
    | c2 :: _ => (c == '/' && c2 == '*') || hasSlashStar rest

/-- Scanner for `re.sub(r"/\*.*?\*/", " ", sql, flags=re.S)` (source lines 95
and 137).  Mode `false` copies characters; on `/*` with a `*/` somewhere
after it, it emits one space and enters mode `true`, which discards
characters up to and including the first `*/` (the non-greedy match).  An
opening `/*` with no later `*/` never matches: it is emitted as is and the
scan continues after the `*` (equivalent to the regex engine advancing one
character, since a match can only begin at a `/`, and no later opener can
match either once no `*/` remains). -/
def sbcAux : List Char → Bool → List Char
  | [], _ => []
  | '*' :: '/' :: rest2, true => sbcAux rest2 false
  | _ :: rest, true => sbcAux rest true
  | '/' :: '*' :: rest2, false =>
    if hasStarSlash rest2 then ' ' :: sbcAux rest2 true
    else '/' :: '*' :: sbcAux rest2 false
  | c :: rest, false => c :: sbcAux rest false

/-- The block-comment removal pass (first line of the comment stripper). -/
def blockCommentSub (l : List Char) : List Char :=
  sbcAux l false

/-- The line-filter pass (second line of the comment stripper):
`"\n".join([ln for ln in sql.splitlines() if not ln.strip().startswith("--")])`. -/
def dropDashLines (l : List Char) : List Char :=
  joinNL ((pySplitlines l).filter (fun ln => !(startsDD (pyStrip ln))))

/-- The Comment Stripper: block comments replaced by a space first, then
whole comment-only lines dropped (source lines 95-96 and 137-138). -/
def stripCommentsOp (l : List Char) : List Char :=
  dropDashLines (blockCommentSub l)

/-- Helper for Python `str.split()` with no argument: splits on runs of
whitespace, producing no empty words. -/
def pySplitWsAux : List Char → List Char → List (List Char)
  | [], acc =>
    match acc with
    | [] => []
    | _ => [acc.reverse]
  | c :: rest, acc =>
    if c.isWhitespace then
      match acc with
      | [] => pySplitWsAux rest []
      | _ => acc.reverse :: pySplitWsAux rest []
    else pySplitWsAux rest (c :: acc)

/-- Python `str.split()` with no argument. -/
def pySplitWs (l : List Char) : List (List Char) :=
  pySplitWsAux l []

/-- Python `" ".join`. -/
def joinSpace : List (List Char) → List Char
  | [] => []
  | [w] => w
  | w :: ws => w ++ ' ' :: joinSpace ws

/-- The best-effort minifier `" ".join(sql.split())` (source line 103). -/
def collapseWs (l : List Char) : List Char :=
  joinSpace (pySplitWs l)

/-- The transformation described by the specification's words for the
minify fallback: every maximal run of whitespace is replaced by a single
space (boundary runs included).  The Boolean records whether the previous
character was part of a whitespace run. -/
def cwsAux : List Char → Bool → List Char
  | [], _ => []
  | c :: rest, inRun =>
    if c.isWhitespace then
      if inRun then cwsAux rest true
      else ' ' :: cwsAux rest true
    else c :: cwsAux rest false

/-- Spec-worded whitespace collapse (see `cwsAux`). -/
def collapseWsSpec (l : List Char) : List Char :=
  cwsAux l false

/-- Python `str.upper()` (ASCII option strings only). -/
def pyUpper (l : List Char) : List Char :=
  l.map Char.toUpper

/-- Python `str.lower()` (ASCII option strings only). -/
def pyLower (l : List Char) : List Char :=
  l.map Char.toLower

/-- A numeric token standing for a Python exception object raised by a
backend library call; distinct tokens stand for distinct exceptions. -/
abbrev PyExn := Nat

/-- The errors the formatter itself can surface to the user. -/
inductive FmtErr where
  | emptyInput : FmtErr
  | backendUnavailable : FmtErr
  | raised : PyExn → FmtErr
deriving DecidableEq

/-- The sqlglot entry points used by `format_with_sqlglot`, abstracted: each
closes over the UI option values it receives in the source and may raise.
`transpileIdentity` is `sqlglot.transpile(sql, read=dialect, pretty=False,
identity=True)[0]` (line 100), `parseRender` is `parse_one(...)` followed by
`tree.sql(pretty=True, ...)` (lines 107-117), and `transpilePretty` is
`sqlglot.transpile(sql, read=dialect, pretty=True)[0]` (line 121). -/
structure GlotBackend where
  transpileIdentity : List Char → Except PyExn (List Char)
  parseRender : List Char → Except PyExn (List Char)
  transpilePretty : List Char → Except PyExn (List Char)

/-- Tags naming the sqlglot entry points, used to record the calls a run of
`format_with_sqlglot` performs, in order. -/
inductive GCall where
  | transpileIdentity : GCall
  | parseRender : GCall
  | transpilePretty : GCall
deriving DecidableEq

/-- The shared preprocessing of both backends: the Comment Normalizer when
`single_line_safe`, then the Comment Stripper when `remove_comments`
(source lines 90-96 and 129-138). -/
def preprocessSql (single_line_safe remove_comments : Bool) (sql : List Char) : List Char :=
  let s1 := if single_line_safe then dtbAux sql none else sql
  if remove_comments then stripCommentsOp s1 else s1

/-- `format_with_sqlglot` (source lines 88-123).  Returns the result
together with the list of backend entry points invoked, in order. -/
def format_with_sqlglot (B : GlotBackend)
    (single_line_safe remove_comments compact : Bool) (sql : List Char) :
    Except PyExn (List Char) × List GCall :=
  let s := preprocessSql single_line_safe remove_comments sql
  if compact then
    match B.transpileIdentity s with
    | Except.ok r => (Except.ok r, [GCall.transpileIdentity])
    | Except.error _ => (Except.ok (collapseWs s), [GCall.transpileIdentity])
  else
    match B.parseRender s with
    | Except.ok r => (Except.ok r, [GCall.parseRender])
    | Except.error e =>
      match B.transpilePretty s with
      | Except.ok r => (Except.ok r, [GCall.parseRender, GCall.transpilePretty])
      | Except.error _ =>
        (Except.error e, [GCall.parseRender, GCall.transpilePretty])

/-- The sqlparse entry point used by `format_with_sqlparse`, abstracted:
`format sql keyword_case reindent indent_width strip_comments` stands for
`sqlparse.format(sql, keyword_case=..., reindent=..., indent_width=...,
strip_comments=...)`, with `indent_width` absent (`none`) in the compact
call (source lines 141-149).  It is total: the fallback call is not wrapped
in any exception handler in the source. -/
structure ParseBackend where
  format : List Char → List Char → Bool → Option Nat → Bool → List Char

/-- `format_with_sqlparse` (source lines 125-149).  Raising
`RuntimeError("Neither sqlglot nor sqlparse available.")` is modelled as
`FmtErr.backendUnavailable`. -/
def format_with_sqlparse (HAVE_SQLPARSE : Bool) (P : ParseBackend)
    (single_line_safe remove_comments compact : Bool)
    (keyword_case : List Char) (indent : Nat) (sql : List Char) :
    Except FmtErr (List Char) :=
  if HAVE_SQLPARSE = false then Except.error FmtErr.backendUnavailable
  else
    let kw_case :=
      if keyword_case ≠ ('c' :: 'a' :: 'p' :: 'i' :: 't' :: 'a' :: 'l' :: 'i' :: 'z' :: 'e' :: [])
      then pyUpper keyword_case
      else 'u' :: 'p' :: 'p' :: 'e' :: 'r' :: []
    let s := preprocessSql single_line_safe remove_comments sql
    if compact then
      Except.ok (P.format s (pyLower kw_case) false none remove_comments)
    else
      Except.ok (P.format s (pyLower kw_case) true (some indent) remove_comments)

/-- The action handler (source lines 152-160): warn on blank input, then use
sqlglot when available, else sqlparse.  Exceptions escaping
`format_with_sqlglot` are surfaced via `FmtErr.raised`. -/
def runFormat (HAVE_SQLGLOT HAVE_SQLPARSE : Bool)
    (B : GlotBackend) (P : ParseBackend)
    (single_line_safe remove_comments compact : Bool)
    (keyword_case : List Char) (indent : Nat) (raw_sql : List Char) :
    Except FmtErr (List Char) :=
  if pyStrip raw_sql = [] then Except.error FmtErr.emptyInput
  else if HAVE_SQLGLOT then
    match (format_with_sqlglot B single_line_safe remove_comments compact raw_sql).1 with
    | Except.ok r => Except.ok r
    | Except.error e => Except.error (FmtErr.raised e)
  else
    format_with_sqlparse HAVE_SQLPARSE P single_line_safe remove_comments compact
      keyword_case indent raw_sql

lemma dtbAux_nil_none : dtbAux [] none = [] := rfl

lemma dtbAux_nil_some (acc : List Char) : dtbAux [] (some acc) = mkBlock acc.reverse := rfl

lemma dtbAux_cons_some (c : Char) (rest acc : List Char) :
    dtbAux (c :: rest) (some acc) =
      if c = '\n' then mkBlock acc.reverse ++ '\n' :: dtbAux rest none
      else dtbAux rest (some (c :: acc)) := by
  rw [dtbAux.eq_def]; split <;> simp_all

lemma dtbAux_dashdash (rest2 : List Char) :
    dtbAux ('-' :: '-' :: rest2) none = dtbAux rest2 (some []) := rfl

lemma dtbAux_single (c : Char) : dtbAux [c] none = [c] := by
  rw [dtbAux.eq_def]; split <;> simp_all [dtbAux_nil_none]

lemma dtbAux_cons_cons_ne (c c2 : Char) (rest2 : List Char) (h : ¬(c = '-' ∧ c2 = '-')) :
    dtbAux (c :: c2 :: rest2) none = c :: dtbAux (c2 :: rest2) none := by
  rw [dtbAux.eq_def]; split <;> simp_all

lemma dtbAux_comment (body : List Char) (acc : List Char) (h : '\n' ∉ body) :
    dtbAux body (some acc) = mkBlock (acc.reverse ++ body) := by
  induction body generalizing acc with
  | nil => simp [dtbAux_nil_some]
  | cons c rest ih =>
    have hc : c ≠ '\n' := by intro hc; exact h (hc ▸ List.mem_cons_self c rest)
    have hr : '\n' ∉ rest := fun hm => h (List.mem_cons_of_mem c hm)
    rw [dtbAux_cons_some, if_neg hc, ih (c :: acc) hr]
    simp

lemma dtbAux_comment_nl (body rest acc : List Char) (h : '\n' ∉ body) :
    dtbAux (body ++ '\n' :: rest) (some acc) =
      mkBlock (acc.reverse ++ body) ++ '\n' :: dtbAux rest none := by
  induction body generalizing acc with
  | nil => simp [dtbAux_cons_some]
  | cons c body2 ih =>
    have hc : c ≠ '\n' := by intro hc; exact h (hc ▸ List.mem_cons_self c body2)
    have hr : '\n' ∉ body2 := fun hm => h (List.mem_cons_of_mem c hm)
    rw [List.cons_append, dtbAux_cons_some, if_neg hc, ih (c :: acc) hr]
    simp

lemma dtbAux_cons_ne_dash (c : Char) (rest : List Char) (h : c ≠ '-') :
    dtbAux (c :: rest) none = c :: dtbAux rest none := by
  cases rest with
  | nil => exact dtbAux_single c
  | cons c2 rest2 => exact dtbAux_cons_cons_ne c c2 rest2 (by tauto)

lemma findDashDash_single (c : Char) : findDashDash [c] = none := rfl

lemma findDashDash_pos (rest2 : List Char) : findDashDash ('-' :: '-' :: rest2) = some 0 := by
  simp [findDashDash]

lemma findDashDash_cons_cons (c c2 : Char) (rest2 : List Char) :
    findDashDash (c :: c2 :: rest2) =
      if c = '-' ∧ c2 = '-' then some 0
      else (findDashDash (c2 :: rest2)).map (fun i => i + 1) := rfl

lemma findDashDash_neg (c c2 : Char) (rest2 : List Char) (h : ¬(c = '-' ∧ c2 = '-')) :
    findDashDash (c :: c2 :: rest2) = (findDashDash (c2 :: rest2)).map (fun i => i + 1) := by
  rw [findDashDash_cons_cons, if_neg h]

lemma specLineRewrite_nil : specLineRewrite [] = [] := rfl

lemma specLineRewrite_no_marker (l : List Char) (h : findDashDash l = none) :
    specLineRewrite l = l := by
  simp [specLineRewrite, h]

lemma specLineRewrite_cons (c : Char) (rest : List Char)
    (h : ¬(c = '-' ∧ rest.head? = some '-')) :
    specLineRewrite (c :: rest) = c :: specLineRewrite rest := by
  cases rest with
  | nil => simp [specLineRewrite, findDashDash_single, findDashDash]
  | cons c2 rest2 =>
    have h2 : ¬(c = '-' ∧ c2 = '-') := by simp_all
    cases hf : findDashDash (c2 :: rest2) with
    | none =>
      have hl : findDashDash (c :: c2 :: rest2) = none := by
        rw [findDashDash_neg c c2 rest2 h2, hf]; rfl
      rw [specLineRewrite_no_marker _ hl, specLineRewrite_no_marker _ hf]
    | some i =>
      have hl : findDashDash (c :: c2 :: rest2) = some (i + 1) := by
        rw [findDashDash_neg c c2 rest2 h2, hf]; rfl
      have hd : (c :: c2 :: rest2).drop (i + 1 + 2) = (c2 :: rest2).drop (i + 2) := by
        have he : i + 1 + 2 = (i + 2) + 1 := by omega
        rw [he, List.drop_succ_cons]
      simp only [specLineRewrite, hl, hf, hd, List.take_succ_cons]
      simp

lemma hasDashDash_cons_cons (c c2 : Char) (rest2 : List Char) :
    hasDashDash (c :: c2 :: rest2) = ((c == '-' && c2 == '-') || hasDashDash (c2 :: rest2)) := rfl

lemma dtbAux_no_marker (l : List Char) (h : hasDashDash l = false) : dtbAux l none = l := by
  induction l with
  | nil => rfl
  | cons c rest ih =>
    cases rest with
    | nil => exact dtbAux_single c
    | cons c2 rest2 =>
      rw [hasDashDash_cons_cons] at h
      have h1 : ¬(c = '-' ∧ c2 = '-') := by
        intro hc
        simp [hc.1, hc.2] at h
      have h2 : hasDashDash (c2 :: rest2) = false := by
        rcases Bool.or_eq_false_iff.mp h with ⟨_, hb⟩
        exact hb
      rw [dtbAux_cons_cons_ne c c2 rest2 h1, ih h2]

lemma dtb_line (l : List Char) (h : '\n' ∉ l) : dtbAux l none = specLineRewrite l := by
  induction l with
  | nil => rfl
  | cons c rest ih =>
    cases rest with
    | nil => rw [dtbAux_single, specLineRewrite_cons c [] (by simp), specLineRewrite_nil]
    | cons c2 rest2 =>
      by_cases hd : c = '-' ∧ c2 = '-'
      · obtain ⟨hc, hc2⟩ := hd
        subst hc; subst hc2
        have hr : '\n' ∉ rest2 := by
          intro hm; exact h (List.mem_cons_of_mem _ (List.mem_cons_of_mem _ hm))
        rw [dtbAux_dashdash, dtbAux_comment rest2 [] hr]
        simp [specLineRewrite, findDashDash_pos, mkBlock]
      · have hr : '\n' ∉ c2 :: rest2 := by
          intro hm; exact h (List.mem_cons_of_mem _ hm)
        rw [dtbAux_cons_cons_ne c c2 rest2 hd, ih hr,
          specLineRewrite_cons c (c2 :: rest2) (by simp_all)]

lemma dtb_line_nl (l rest : List Char) (h : '\n' ∉ l) :
    dtbAux (l ++ '\n' :: rest) none = specLineRewrite l ++ '\n' :: dtbAux rest none := by
  induction l with
  | nil =>
    rw [List.nil_append, specLineRewrite_nil, List.nil_append,
      dtbAux_cons_ne_dash '\n' rest (by decide)]
  | cons c l2 ih =>
    cases l2 with
    | nil =>
      have hcd : ¬(c = '-' ∧ '\n' = '-') := by simp
      rw [List.cons_append, List.nil_append, dtbAux_cons_cons_ne c '\n' rest hcd,
        dtbAux_cons_ne_dash '\n' rest (by decide),
        specLineRewrite_cons c [] (by simp), specLineRewrite_nil]
      rfl
    | cons c2 l3 =>
      by_cases hd : c = '-' ∧ c2 = '-'
      · obtain ⟨hc, hc2⟩ := hd
        subst hc; subst hc2
        have hr : '\n' ∉ l3 := by
          intro hm; exact h (List.mem_cons_of_mem _ (List.mem_cons_of_mem _ hm))
        rw [List.cons_append, List.cons_append, dtbAux_dashdash,
          dtbAux_comment_nl l3 rest [] hr]
        simp [specLineRewrite, findDashDash_pos, mkBlock]
      · have hr : '\n' ∉ c2 :: l3 := by
          intro hm; exact h (List.mem_cons_of_mem _ hm)
        have ih2 := ih hr
        simp only [List.cons_append] at ih2 ⊢
        rw [dtbAux_cons_cons_ne c c2 (l3 ++ '\n' :: rest) hd, ih2,
          specLineRewrite_cons c (c2 :: l3) (by simp_all)]
        simp

lemma joinNL_cons_cons (l l2 : List Char) (ls : List (List Char)) :
    joinNL (l :: l2 :: ls) = l ++ '\n' :: joinNL (l2 :: ls) := rfl

lemma dtb_lines (ls : List (List Char)) (h : ∀ l ∈ ls, '\n' ∉ l) :
    dtbAux (joinNL ls) none = joinNL (ls.map specLineRewrite) := by
  induction ls with
  | nil => rfl
  | cons l ls ih =>
    cases ls with
    | nil => exact dtb_line l (h l (List.mem_cons_self l []))
    | cons l2 ls2 =>
      have h1 : '\n' ∉ l := h l (List.mem_cons_self _ _)
      have h2 : ∀ x ∈ l2 :: ls2, '\n' ∉ x := fun x hx => h x (List.mem_cons_of_mem _ hx)
      rw [joinNL_cons_cons, dtb_line_nl l (joinNL (l2 :: ls2)) h1, ih h2]
      rfl

lemma sbc_nil (b : Bool) : sbcAux [] b = [] := rfl

lemma sbc_true_close (post : List Char) : sbcAux ('*' :: '/' :: post) true = sbcAux post false := rfl

lemma sbc_true_single (c : Char) : sbcAux [c] true = [] := by
  rw [sbcAux.eq_def]; split <;> simp_all [sbc_nil]

lemma sbc_true_step (c c2 : Char) (rest2 : List Char) (h : ¬(c = '*' ∧ c2 = '/')) :
    sbcAux (c :: c2 :: rest2) true = sbcAux (c2 :: rest2) true := by
  rw [sbcAux.eq_def]; split <;> simp_all

lemma sbc_open (X : List Char) :
    sbcAux ('/' :: '*' :: X) false =
      if hasStarSlash X then ' ' :: sbcAux X true else '/' :: '*' :: sbcAux X false := rfl

lemma sbc_false_single (c : Char) : sbcAux [c] false = [c] := by
  rw [sbcAux.eq_def]; split <;> simp_all [sbc_nil]

lemma sbc_false_step (c c2 : Char) (rest2 : List Char) (h : ¬(c = '/' ∧ c2 = '*')) :
    sbcAux (c :: c2 :: rest2) false = c :: sbcAux (c2 :: rest2) false := by
  rw [sbcAux.eq_def]; split <;> simp_all

lemma hasStarSlash_cons_cons (c c2 : Char) (rest2 : List Char) :
    hasStarSlash (c :: c2 :: rest2) = ((c == '*' && c2 == '/') || hasStarSlash (c2 :: rest2)) := rfl

lemma hasStarSlash_tail (c : Char) (rest : List Char) (h : hasStarSlash (c :: rest) = false) :
    hasStarSlash rest = false := by
  cases rest with
  | nil => rfl
  | cons c2 rest2 =>
    rw [hasStarSlash_cons_cons] at h
    exact (Bool.or_eq_false_iff.mp h).2

lemma hasStarSlash_append_close (body post : List Char) :
    hasStarSlash (body ++ '*' :: '/' :: post) = true := by
  induction body with
  | nil => simp [hasStarSlash_cons_cons]
  | cons c rest ih =>
    cases rest with
    | nil => simp [hasStarSlash_cons_cons]
    | cons c2 rest2 =>
      simp only [List.cons_append] at ih ⊢
      rw [hasStarSlash_cons_cons, ih]
      simp

lemma sbc_comment_close (body post : List Char) (h : hasStarSlash body = false) :
    sbcAux (body ++ '*' :: '/' :: post) true = sbcAux post false := by
  induction body with
  | nil => exact sbc_true_close post
  | cons c rest ih =>
    cases rest with
    | nil =>
      have hc : ¬(c = '*' ∧ '*' = '/') := by simp
      rw [List.cons_append, List.nil_append, sbc_true_step c '*' ('/' :: post) hc,
        sbc_true_close post]
    | cons c2 rest2 =>
      have h1 : ¬(c = '*' ∧ c2 = '/') := by
        intro hc
        rw [hasStarSlash_cons_cons, hc.1, hc.2] at h
        simp at h
      have h2 : hasStarSlash (c2 :: rest2) = false := hasStarSlash_tail c _ h
      have ih2 := ih h2
      simp only [List.cons_append] at ih2 ⊢
      rw [sbc_true_step c c2 (rest2 ++ '*' :: '/' :: post) h1, ih2]

lemma hasSlashStar_cons_cons (c c2 : Char) (rest2 : List Char) :
    hasSlashStar (c :: c2 :: rest2) = ((c == '/' && c2 == '*') || hasSlashStar (c2 :: rest2)) := rfl

lemma sbc_false_copy (pre q2 : List Char) (h : hasSlashStar pre = false) :
    sbcAux (pre ++ '/' :: q2) false = pre ++ sbcAux ('/' :: q2) false := by
  induction pre with
  | nil => rfl
  | cons c rest ih =>
    cases rest with
    | nil =>
      have hc : ¬(c = '/' ∧ '/' = '*') := by simp
      rw [List.cons_append, List.nil_append, sbc_false_step c '/' q2 hc, List.cons_append,
        List.nil_append]
    | cons c2 rest2 =>
      have h1 : ¬(c = '/' ∧ c2 = '*') := by
        intro hc
        rw [hasSlashStar_cons_cons, hc.1, hc.2] at h
        simp at h
      have h2 : hasSlashStar (c2 :: rest2) = false := by
        rw [hasSlashStar_cons_cons] at h
        exact (Bool.or_eq_false_iff.mp h).2
      have ih2 := ih h2
      simp only [List.cons_append] at ih2 ⊢
      rw [sbc_false_step c c2 (rest2 ++ '/' :: q2) h1, ih2]

lemma sbc_no_close_id (l : List Char) (h : hasStarSlash l = false) : sbcAux l false = l := by
  induction l with
  | nil => rfl
  | cons c rest ih =>
    cases rest with
    | nil => exact sbc_false_single c
    | cons c2 rest2 =>
      have h2 : hasStarSlash (c2 :: rest2) = false := hasStarSlash_tail c _ h
      by_cases hc : c = '/' ∧ c2 = '*'
      · obtain ⟨hc1, hc2⟩ := hc
        subst hc1; subst hc2
        have h3 : hasStarSlash rest2 = false := hasStarSlash_tail '*' rest2 h2
        rw [sbc_open, if_neg (by simp [h3])]
        have h4 : sbcAux ('*' :: rest2) false = '*' :: rest2 := ih h2
        have h5 : sbcAux ('*' :: rest2) false = '*' :: sbcAux rest2 false := by
          cases rest2 with
          | nil => exact sbc_false_single '*'
          | cons c3 rest3 => exact sbc_false_step '*' c3 rest3 (by simp)
        rw [h5] at h4
        rw [List.cons_injective.eq_iff] at h4
        rw [h4]
      · rw [sbc_false_step c c2 rest2 hc, ih h2]

lemma sbc_block_once (pre body post : List Char)
    (hpre : hasSlashStar pre = false) (hbody : hasStarSlash body = false) :
    sbcAux (pre ++ '/' :: '*' :: (body ++ '*' :: '/' :: post)) false =
      pre ++ ' ' :: sbcAux post false := by
  rw [sbc_false_copy pre ('*' :: (body ++ '*' :: '/' :: post)) hpre, sbc_open,
    if_pos (hasStarSlash_append_close body post), sbc_comment_close body post hbody]

lemma sbc_open_unmatched (pre post : List Char)
    (hpre : hasSlashStar pre = false) (hpost : hasStarSlash post = false) :
    sbcAux (pre ++ '/' :: '*' :: post) false = pre ++ '/' :: '*' :: post := by
  rw [sbc_false_copy pre ('*' :: post) hpre, sbc_open, if_neg (by simp [hpost])]
  have h5 : sbcAux ('*' :: post) false = '*' :: sbcAux post false := by
    cases post with
    | nil => exact sbc_false_single '*'
    | cons c3 rest3 => exact sbc_false_step '*' c3 rest3 (by simp)
  rw [sbc_no_close_id post hpost]

lemma splitNLAux_crlf (rest acc : List Char) :
    splitNLAux ('\r' :: '\n' :: rest) acc = acc.reverse :: splitNLAux rest [] := rfl

lemma splitNLAux_lf (rest acc : List Char) :
    splitNLAux ('\n' :: rest) acc = acc.reverse :: splitNLAux rest [] := by
  rw [splitNLAux.eq_def]
  split
  · simp_all
  · simp_all
  · rename_i heq
    injection heq with h1 h2
    subst h1
    subst h2
    simp

lemma splitNLAux_cr (rest acc : List Char) (h : rest.head? ≠ some '\n') :
    splitNLAux ('\r' :: rest) acc = acc.reverse :: splitNLAux rest [] := by
  cases rest with
  | nil =>
    rw [splitNLAux.eq_def]
    split
    · simp_all
    · simp_all
    · rename_i heq
      injection heq with h1 h2
      subst h1
      subst h2
      simp
  | cons c2 rest2 =>
    have hc2 : c2 ≠ '\n' := by simp_all
    rw [splitNLAux.eq_def]
    split
    · simp_all
    · simp_all
    · rename_i heq
      injection heq with h1 h2
      subst h1
      subst h2
      simp

lemma splitNLAux_accum (c : Char) (X acc : List Char) (h1 : c ≠ '\n') (h2 : c ≠ '\r') :
    splitNLAux (c :: X) acc = splitNLAux X (c :: acc) := by
  rw [splitNLAux.eq_def]; split <;> simp_all

lemma splitNLAux_no_term (l acc : List Char) (h1 : '\n' ∉ l) (h2 : '\r' ∉ l) :
    splitNLAux l acc = if acc.reverse ++ l = [] then [] else [acc.reverse ++ l] := by
  induction l generalizing acc with
  | nil =>
    cases acc with
    | nil => rfl
    | cons a as => simp [splitNLAux]
  | cons c rest ih =>
    have hc1 : c ≠ '\n' := by intro hc; exact h1 (hc ▸ List.mem_cons_self c rest)
    have hc2 : c ≠ '\r' := by intro hc; exact h2 (hc ▸ List.mem_cons_self c rest)
    have hr1 : '\n' ∉ rest := fun hm => h1 (List.mem_cons_of_mem c hm)
    have hr2 : '\r' ∉ rest := fun hm => h2 (List.mem_cons_of_mem c hm)
    rw [splitNLAux_accum c rest acc hc1 hc2, ih (c :: acc) hr1 hr2]
    simp

lemma splitNLAux_term (l : List Char) (t : LineTerm) (rest acc : List Char)
    (h1 : '\n' ∉ l) (h2 : '\r' ∉ l)
    (ht : t = LineTerm.cr → rest.head? ≠ some '\n') :
    splitNLAux (l ++ termChars t ++ rest) acc = (acc.reverse ++ l) :: splitNLAux rest [] := by
  induction l generalizing acc with
  | nil =>
    cases t with
    | lf => simpa [termChars] using splitNLAux_lf rest acc
    | cr => simpa [termChars] using splitNLAux_cr rest acc (ht rfl)
    | crlf => simpa [termChars] using splitNLAux_crlf rest acc
  | cons c l2 ih =>
    have hc1 : c ≠ '\n' := by intro hc; exact h1 (hc ▸ List.mem_cons_self c l2)
    have hc2 : c ≠ '\r' := by intro hc; exact h2 (hc ▸ List.mem_cons_self c l2)
    have hr1 : '\n' ∉ l2 := fun hm => h1 (List.mem_cons_of_mem c hm)
    have hr2 : '\r' ∉ l2 := fun hm => h2 (List.mem_cons_of_mem c hm)
    have ih2 := ih (c :: acc) hr1 hr2
    simp only [List.cons_append] at ih2 ⊢
    rw [splitNLAux_accum c (l2 ++ termChars t ++ rest) acc hc1 hc2, ih2]
    simp

lemma noCRThenLF_cons (l : List Char) (t : LineTerm) (ps : List (List Char × LineTerm))
    (last : List Char) :
    noCRThenLF ((l, t) :: ps) last =
      ((if t = LineTerm.cr then !((assembleLines ps last).head? == some '\n') else true)
        && noCRThenLF ps last) := rfl

lemma pySplitlines_assemble (ps : List (List Char × LineTerm)) (last : List Char)
    (h : ∀ p ∈ ps, '\n' ∉ p.1 ∧ '\r' ∉ p.1)
    (h1 : '\n' ∉ last) (h2 : '\r' ∉ last)
    (hwf : noCRThenLF ps last = true) :
    pySplitlines (assembleLines ps last) =
      ps.map Prod.fst ++ (if last = [] then [] else [last]) := by
  induction ps with
  | nil =>
    show splitNLAux last [] = _
    rw [splitNLAux_no_term last [] h1 h2]
    simp
  | cons p ps ih =>
    obtain ⟨l, t⟩ := p
    have hl := h (l, t) (List.mem_cons_self _ _)
    have hps : ∀ q ∈ ps, '\n' ∉ q.1 ∧ '\r' ∉ q.1 :=
      fun q hq => h q (List.mem_cons_of_mem _ hq)
    rw [noCRThenLF_cons] at hwf
    have hwf2 : noCRThenLF ps last = true := (Bool.and_eq_true_iff.mp hwf).2
    have hcr : t = LineTerm.cr → (assembleLines ps last).head? ≠ some '\n' := by
      intro htc
      have h0 := (Bool.and_eq_true_iff.mp hwf).1
      rw [if_pos htc] at h0
      simp at h0
      exact h0
    show splitNLAux (l ++ termChars t ++ assembleLines ps last) [] = _
    rw [splitNLAux_term l t (assembleLines ps last) [] hl.1 hl.2 hcr,
      show splitNLAux (assembleLines ps last) [] = pySplitlines (assembleLines ps last) from rfl,
      ih hps hwf2]
    simp

lemma dropDashLines_assemble (ps : List (List Char × LineTerm)) (last : List Char)
    (h : ∀ p ∈ ps, '\n' ∉ p.1 ∧ '\r' ∉ p.1)
    (h1 : '\n' ∉ last) (h2 : '\r' ∉ last)
    (hwf : noCRThenLF ps last = true) :
    dropDashLines (assembleLines ps last) =
      joinNL ((ps.map Prod.fst ++ if last = [] then [] else [last]).filter
        (fun ln => !(startsDD (pyStrip ln)))) := by
  rw [dropDashLines, pySplitlines_assemble ps last h h1 h2 hwf]

deriving instance DecidableEq for Except

def glotStub : GlotBackend :=
  { transpileIdentity := fun s => Except.ok s
    parseRender := fun s => Except.ok s
    transpilePretty := fun s => Except.ok s }

def glotFailBoth : GlotBackend :=
  { transpileIdentity := fun _ => Except.error 0
    parseRender := fun _ => Except.error 7
    transpilePretty := fun _ => Except.error 9 }

def glotIdFail : GlotBackend :=
  { transpileIdentity := fun _ => Except.error 3
    parseRender := fun _ => Except.error 3
    transpilePretty := fun _ => Except.error 3 }

def parseBackendId : ParseBackend :=
  { format := fun s _ _ _ _ => s }

/-- C1: for every input string, split into lines at newlines, the Comment
Normalizer rewrites each line as described by the specification: the span
from the first `--` marker up to but not including the next newline is
replaced by `/* ` ++ the span's text after the two hyphens with leading and
trailing whitespace trimmed ++ ` */`, and all text before the marker is left
unchanged (`specLineRewrite`); in particular
`dash_to_block "SELECT 1 -- note" = "SELECT 1 /* note */"`. -/
theorem C1_normalizer_per_line :
    (∀ ls : List (List Char), (∀ l ∈ ls, '\n' ∉ l) →
        dtbAux (joinNL ls) none = joinNL (ls.map specLineRewrite))
    ∧ dash_to_block "SELECT 1 -- note" = "SELECT 1 /* note */" :=
  ⟨fun ls h => dtb_lines ls h, by decide⟩

theorem C1_normalizer_per_line_witness :
    dtbAux (joinNL [['x'], ['a', ' ', '-', '-', ' ', 'n', ' ']]) none =
      joinNL ([['x'], ['a', ' ', '-', '-', ' ', 'n', ' ']].map specLineRewrite) :=
  C1_normalizer_per_line.1 [['x'], ['a', ' ', '-', '-', ' ', 'n', ' ']] (by decide)

/-- C6: for every input string containing no `--` sequence, the Comment
Normalizer returns the input unchanged. -/
theorem C6_no_marker_unchanged (s : String) (h : hasDashDash s.data = false) :
    dash_to_block s = s := by
  show String.mk (dtbAux s.data none) = s
  rw [dtbAux_no_marker s.data h]

theorem C6_no_marker_unchanged_witness :
    hasDashDash "SELECT 1".data = false ∧ dash_to_block "SELECT 1" = "SELECT 1" :=
  ⟨by decide, C6_no_marker_unchanged "SELECT 1" (by decide)⟩

/-- C5: for every string containing no `--` sequence, applying the Comment
Normalizer twice yields the same result as applying it once. -/
theorem C5_idempotent_no_marker (s : String) (h : hasDashDash s.data = false) :
    dash_to_block (dash_to_block s) = dash_to_block s := by
  have hs : dash_to_block s = s := by
    show String.mk (dtbAux s.data none) = s
    rw [dtbAux_no_marker s.data h]
  rw [hs]
  exact hs

theorem C5_idempotent_no_marker_witness :
    hasDashDash "SELECT 1 /* a */".data = false ∧
      dash_to_block (dash_to_block "SELECT 1 /* a */") = dash_to_block "SELECT 1 /* a */" :=
  ⟨by decide, C5_idempotent_no_marker "SELECT 1 /* a */" (by decide)⟩

/-- C9: on a line with more than one `--` marker the Comment Normalizer
performs a single rewrite spanning from the first marker to the end of the
line: `"x -- a -- b"` becomes `"x /* a -- b */"`, whose block-comment body
still contains `--`, and a second application changes the result again, so
`dash_to_block` is not idempotent on such inputs. -/
theorem C9_multiple_markers_single_rewrite :
    dash_to_block "x -- a -- b" = "x /* a -- b */"
    ∧ hasDashDash (dash_to_block "x -- a -- b").data = true
    ∧ dash_to_block (dash_to_block "x -- a -- b") ≠ dash_to_block "x -- a -- b" :=
  ⟨by decide, by decide, by decide⟩

/-- C3: with `stripComments=true` the Comment Stripper first replaces each
non-greedy block comment `/* ... */` (ending at the first closing delimiter)
by a single space (first conjunct), and then drops entirely every line whose
first non-whitespace characters are `--` while keeping all other lines and
rejoining with `\n` (second conjunct, over every decomposition of the text
into lines delimited by the `\n`, `\r` or `\r\n` terminators of
`str.splitlines()`); a whole-line `-- full line comment` is dropped, while
`SELECT 1 -- trailing note` keeps its trailing comment untouched, a `\r\n`
terminator is rewritten to `\n`, and a `--` line exposed by a bare `\r` is
dropped (last four conjuncts). -/
theorem C3_comment_stripper :
    (∀ pre body post : List Char,
        hasSlashStar pre = false → hasStarSlash body = false →
        blockCommentSub (pre ++ '/' :: '*' :: (body ++ '*' :: '/' :: post)) =
          pre ++ ' ' :: blockCommentSub post)
    ∧ (∀ (ps : List (List Char × LineTerm)) (last : List Char),
        (∀ p ∈ ps, '\n' ∉ p.1 ∧ '\r' ∉ p.1) → '\n' ∉ last → '\r' ∉ last →
        noCRThenLF ps last = true →
        dropDashLines (assembleLines ps last) =
          joinNL ((ps.map Prod.fst ++ if last = [] then [] else [last]).filter
            (fun ln => !(startsDD (pyStrip ln)))))
    ∧ stripCommentsOp "SELECT 1\n-- full line comment\nFROM t".data = "SELECT 1\nFROM t".data
    ∧ stripCommentsOp "SELECT 1 -- trailing note".data = "SELECT 1 -- trailing note".data
    ∧ stripCommentsOp "SELECT 1\r\nFROM t".data = "SELECT 1\nFROM t".data
    ∧ stripCommentsOp "x\r-- y".data = "x".data :=
  ⟨fun pre body post h1 h2 => sbc_block_once pre body post h1 h2,
   fun ps last h h1 h2 hwf => dropDashLines_assemble ps last h h1 h2 hwf,
   by decide, by decide, by decide, by decide⟩

theorem C3_comment_stripper_witness :
    blockCommentSub ("a".data ++ '/' :: '*' :: ("x".data ++ '*' :: '/' :: "b".data)) =
      "a".data ++ ' ' :: blockCommentSub "b".data
    ∧ dropDashLines (assembleLines [(['a'], LineTerm.crlf), (['-', '-', 'c'], LineTerm.cr)] ['b']) =
        joinNL (([(['a'], LineTerm.crlf), (['-', '-', 'c'], LineTerm.cr)].map Prod.fst ++
          if (['b'] : List Char) = [] then [] else [['b']]).filter
            (fun ln => !(startsDD (pyStrip ln)))) :=
  ⟨C3_comment_stripper.1 "a".data "x".data "b".data (by decide) (by decide),
   C3_comment_stripper.2.1 [(['a'], LineTerm.crlf), (['-', '-', 'c'], LineTerm.cr)] ['b']
     (by decide) (by decide) (by decide) (by decide)⟩

/-- C10: with `stripComments=true`, an opening `/*` with no matching `*/`
anywhere later in the text is not removed by the block-comment pass, which
leaves such a text unchanged, so only the line-based `--` filter still
applies to it. -/
theorem C10_unterminated_open_kept (pre post : List Char)
    (h1 : hasSlashStar pre = false) (h2 : hasStarSlash post = false) :
    blockCommentSub (pre ++ '/' :: '*' :: post) = pre ++ '/' :: '*' :: post
    ∧ stripCommentsOp (pre ++ '/' :: '*' :: post) = dropDashLines (pre ++ '/' :: '*' :: post) := by
  have hb : blockCommentSub (pre ++ '/' :: '*' :: post) = pre ++ '/' :: '*' :: post :=
    sbc_open_unmatched pre post h1 h2
  exact ⟨hb, by rw [stripCommentsOp, hb]⟩

theorem C10_unterminated_open_kept_witness :
    blockCommentSub ("x".data ++ '/' :: '*' :: " \r-- y".data) =
      "x".data ++ '/' :: '*' :: " \r-- y".data
    ∧ stripCommentsOp ("x".data ++ '/' :: '*' :: " \r-- y".data) =
        dropDashLines ("x".data ++ '/' :: '*' :: " \r-- y".data) :=
  C10_unterminated_open_kept "x".data " \r-- y".data (by decide) (by decide)

/-- C2: in pretty mode with the Primary backend, if the parse-then-render
path raises `e1`, exactly one retry via the transpile entry point is
attempted (the recorded call trace is `[parseRender, transpilePretty]`,
holding exactly one transpile call); if the retry also raises (any `e2`),
the propagated error is the original `e1`; if the retry succeeds with `r`,
`r` is returned. -/
theorem C2_pretty_retry_original_error (B : GlotBackend) (sls rc : Bool) (sql : List Char)
    (e1 : PyExn) (h : B.parseRender (preprocessSql sls rc sql) = Except.error e1) :
    (∀ e2, B.transpilePretty (preprocessSql sls rc sql) = Except.error e2 →
        format_with_sqlglot B sls rc false sql =
          (Except.error e1, [GCall.parseRender, GCall.transpilePretty]))
    ∧ (∀ r, B.transpilePretty (preprocessSql sls rc sql) = Except.ok r →
        format_with_sqlglot B sls rc false sql =
          (Except.ok r, [GCall.parseRender, GCall.transpilePretty])) := by
  constructor <;> intro x hx <;> simp [format_with_sqlglot, h, hx]

theorem C2_pretty_retry_original_error_witness :
    format_with_sqlglot glotFailBoth false false false "SELECT".data =
      (Except.error 7, [GCall.parseRender, GCall.transpilePretty]) :=
  (C2_pretty_retry_original_error glotFailBoth false false "SELECT".data 7 rfl).1 9 rfl

/-- C4, counterexample: the claim's wording — the recovered result is the
text with every maximal run of whitespace replaced by a single space
(`collapseWsSpec`) — fails at input `" a"` with a failing compact backend:
the code returns `"a"` (leading whitespace removed entirely), not `" a"`. -/
theorem C4_counterexample :
    ¬((format_with_sqlglot glotIdFail false false true " a".data).1 =
        Except.ok (collapseWsSpec " a".data))
    ∧ (format_with_sqlglot glotIdFail false false true " a".data).1 =
        Except.ok "a".data :=
  ⟨by decide, by decide⟩

/-- C4, amended: in compact mode with the Primary backend, if the transpile
call raises any error, the operation recovers locally and returns `ok` of
the preprocessed text with its whitespace-separated words joined by single
spaces (interior whitespace runs collapsed to one space, leading and
trailing whitespace removed, `" ".join(sql.split())`); the recovery never
fails and the backend failure is not surfaced to the caller. -/
theorem C4_compact_recovery (B : GlotBackend) (sls rc : Bool) (sql : List Char)
    (e : PyExn) (h : B.transpileIdentity (preprocessSql sls rc sql) = Except.error e) :
    format_with_sqlglot B sls rc true sql =
      (Except.ok (collapseWs (preprocessSql sls rc sql)), [GCall.transpileIdentity]) := by
  simp [format_with_sqlglot, h]

theorem C4_compact_recovery_witness :
    format_with_sqlglot glotIdFail false false true " a  b ".data =
      (Except.ok (collapseWs (preprocessSql false false " a  b ".data)),
        [GCall.transpileIdentity]) :=
  C4_compact_recovery glotIdFail false false " a  b ".data 3 rfl

/-- C7: when the Primary backend is unavailable and the Fallback backend is
used, a non-blank request with `keywordCase="capitalize"` invokes the
Fallback with keyword case `"upper"` (never a capitalize/title-case mode),
and the downgrade raises no error: the result is `ok` of the Fallback
call's output, in both compact and pretty modes. -/
theorem C7_capitalize_downgrade (B : GlotBackend) (P : ParseBackend)
    (sls rc cp : Bool) (ind : Nat) (sql : List Char) (h : ¬(pyStrip sql = [])) :
    runFormat false true B P sls rc cp "capitalize".data ind sql =
      Except.ok (P.format (preprocessSql sls rc sql) "upper".data (!cp)
        (if cp then none else some ind) rc) := by
  have hc : "capitalize".data = ['c', 'a', 'p', 'i', 't', 'a', 'l', 'i', 'z', 'e'] := rfl
  cases cp <;> simp [runFormat, h, format_with_sqlparse, hc, pyLower, pyUpper]

theorem C7_capitalize_downgrade_witness :
    runFormat false true glotStub parseBackendId false false false "capitalize".data 4
        "select 1".data =
      Except.ok (parseBackendId.format (preprocessSql false false "select 1".data)
        "upper".data true (some 4) false) := by
  have h := C7_capitalize_downgrade glotStub parseBackendId false false false 4
    "select 1".data (by decide)
  simpa using h

/-- C8: when neither backend is available, every non-blank formatting
request fails with the backend-unavailable error (the model of
`RuntimeError("Neither sqlglot nor sqlparse available.")`) and no output
text is produced. -/
theorem C8_no_backend_error (B : GlotBackend) (P : ParseBackend) (sls rc cp : Bool)
    (kw : List Char) (ind : Nat) (sql : List Char) (h : ¬(pyStrip sql = [])) :
    runFormat false false B P sls rc cp kw ind sql =
      Except.error FmtErr.backendUnavailable := by
  simp [runFormat, h, format_with_sqlparse]

theorem C8_no_backend_error_witness :
    runFormat false false glotStub parseBackendId false false false "upper".data 4
        "select 1".data = Except.error FmtErr.backendUnavailable :=
  C8_no_backend_error glotStub parseBackendId false false false "upper".data 4
    "select 1".data (by decide)
